import Mathlib

/-!
Shallow embedding of `npy2dcm.py`: conversion of an in-memory voxel array
into a DICOM CT series.

Modelling conventions:
* A numpy array is a shape together with its flat (row-major, C-contiguous)
  element buffer; intensities are rationals (exact arithmetic stands in for
  the float arithmetic of the claims, all of which is exact at the inputs
  the claims quantify over).
* `pydicom.uid.generate_uid()` is modelled by a deterministic fresh-name
  supply: a counter that every generation reads and increments, so distinct
  generations yield distinct UIDs (as `Nat`).
* A pydicom `Dataset` is a record of the attributes the program assigns;
  attributes the program never assigns before `save_as` (PixelData,
  DerivationDescription, before `toDicom` sets them) are `Option`-valued,
  `none` meaning "attribute absent".  Wall-clock date/time string fields
  are outside every claim and are omitted.
* Writing a file is an upsert into an association list keyed by path, so a
  write to an existing path replaces its content and never fails, mirroring
  `os.makedirs(exist_ok=True)` + `save_as` overwrite semantics.
-/

namespace Npy2dcm

/-- A numpy ndarray: its shape and its flat row-major buffer. -/
structure NDArray where
  shape : List ℕ
  flat : List ℚ
deriving Repr, DecidableEq

/-- Well-formedness of a real numpy array: the buffer length is the product
of the shape (always true of arrays numpy hands out). -/
def NDArray.WF (a : NDArray) : Prop := a.flat.length = a.shape.prod

/-- Embeds `array.reshape(s)`: reinterpret the flat buffer under new extents;
numpy raises `ValueError` exactly when the element count disagrees with
the product of the target shape. -/
def NDArray.reshape (a : NDArray) (s : List ℕ) : Option NDArray :=
  if a.flat.length = s.prod then some ⟨s, a.flat⟩ else none

/-- Embeds `np.atleast_3d` as reached from `fromArray`: it is only ever called on a
2-D array, where it appends a trailing axis of length 1 (shape (M,N) becomes
(M,N,1)) without touching the buffer. -/
def atleast_3d (a : NDArray) : NDArray :=
  if a.shape.length = 2 then ⟨a.shape ++ [1], a.flat⟩ else a

/-- Embeds `np.min` over the whole buffer (numpy errors on an empty array; the
claims only quantify over nonempty data, where the `0` default is unreachable). -/
def npMin : List ℚ → ℚ
  | [] => 0
  | x :: xs => xs.foldl min x

/-- Embeds `self.data[i, :, :].flatten()` for a 3-D array: the contiguous run of
`shape[1]*shape[2]` elements starting at offset `i*shape[1]*shape[2]`. -/
def sliceFlat (a : NDArray) (i : ℕ) : List ℚ :=
  let rows := a.shape.getD 1 0
  let cols := a.shape.getD 2 0
  (a.flat.drop (i * (rows * cols))).take (rows * cols)

/-- Embeds `FrameOfReference.__init__`: start/spacing/size tuples (stored as given,
no validation) and the optional cached UID. -/
structure FrameOfReference where
  start : List ℚ
  spacing : List ℚ
  size : List ℕ
  UID : Option ℕ
deriving Repr, DecidableEq

/-- Embeds `BaseVolume`: the voxel data, its frame of reference, and the optional
descriptive strings `modality` / `feature_label`. -/
structure Volume where
  data : NDArray
  frameofreference : FrameOfReference
  modality : Option String
  feature_label : Option String
deriving Repr, DecidableEq

/-- Embeds `BaseVolume.fromArray(array, frameofreference)`:
2-D input is promoted via `atleast_3d`; with a supplied frame the array is
reshaped to `frameofreference.size[::-1]` (failure = numpy `ValueError` =
`none`); without one the array is kept and a frame is synthesized as
`FrameOfReference((0,0,0), (1,1,1), (*array.shape[::-1], 1))` — note the
source appends the trailing `1` unconditionally, after the reversal. -/
def fromArray (array : NDArray) (frameofreference : Option FrameOfReference) :
    Option Volume :=
  let array := if array.shape.length = 2 then atleast_3d array else array
  match frameofreference with
  | some f =>
      (array.reshape f.size.reverse).map fun d =>
        { data := d, frameofreference := f, modality := none, feature_label := none }
  | none =>
      some { data := array
             frameofreference :=
               { start := [0, 0, 0], spacing := [1, 1, 1]
                 size := array.shape.reverse ++ [1], UID := none }
             modality := none, feature_label := none }

/-- Embeds `pydicom.uid.generate_uid()` under the fresh-name-supply model: returns
the next fresh UID and the advanced supply. -/
def generate_uid (c : ℕ) : ℕ × ℕ := (c, c + 1)

/-- The attributes of the emitted dataset that the program assigns and the
claims mention.  `Option`-valued fields are absent until assigned. -/
structure Dataset where
  MediaStorageSOPInstanceUID : ℕ
  ImagePositionPatient : List ℚ
  InstanceNumber : ℕ
  StudyInstanceUID : ℕ
  SeriesInstanceUID : ℕ
  FrameOfReferenceUID : ℕ
  SOPInstanceUID : ℕ
  Modality : String
  RescaleIntercept : ℤ
  RescaleSlope : ℚ
  AcquisitionNumber : ℕ
  PixelRepresentation : ℕ
  SliceLocation : ℚ
  Rows : ℕ
  Columns : ℕ
  PixelSpacing : List ℚ
  SliceThickness : ℚ
  DerivationDescription : Option String
  PixelData : Option (List ℕ)
deriving Repr, DecidableEq

/-- Embeds `make_dicom_boilerplate(SeriesInstanceUID, StudyInstanceUID,
FrameOfReferenceUID)`: fresh `MediaStorageSOPInstanceUID`, then
Study/Series/FrameOfReference UIDs taken from the arguments when supplied
(fresh otherwise, in source order), then a fresh `SOPInstanceUID`; the
remaining fields are the boilerplate constants of the source. -/
def make_dicom_boilerplate (SeriesInstanceUID StudyInstanceUID FrameOfReferenceUID : Option ℕ)
    (c : ℕ) : Dataset × ℕ :=
  let p1 := generate_uid c
  let p2 := match StudyInstanceUID with
    | some u => (u, p1.2)
    | none => generate_uid p1.2
  let p3 := match SeriesInstanceUID with
    | some u => (u, p2.2)
    | none => generate_uid p2.2
  let p4 := match FrameOfReferenceUID with
    | some u => (u, p3.2)
    | none => generate_uid p3.2
  let p5 := generate_uid p4.2
  ({ MediaStorageSOPInstanceUID := p1.1
     ImagePositionPatient := [0, 0, 0]
     InstanceNumber := 1
     StudyInstanceUID := p2.1
     SeriesInstanceUID := p3.1
     FrameOfReferenceUID := p4.1
     SOPInstanceUID := p5.1
     Modality := ""
     RescaleIntercept := 0
     RescaleSlope := 1
     AcquisitionNumber := 1
     PixelRepresentation := 0
     SliceLocation := 0
     Rows := 0
     Columns := 0
     PixelSpacing := [1, 1]
     SliceThickness := 1
     DerivationDescription := none
     PixelData := none }, p5.2)

/-- Embeds `'{}{:04d}.dcm'.format(fpre, i)` without the literal parts: the index
zero-padded on the left to at least 4 digits. -/
def pad4 (i : ℕ) : String :=
  let s := toString i
  String.mk (List.replicate (4 - s.length) '0') ++ s

/-- One stored pixel: `(x - min_val).astype(np.uint16)` — C-style
truncation toward zero (= floor, as `x ≥ min_val`) followed by 16-bit
wraparound. -/
def storedPixel (min_val x : ℚ) : ℕ := (⌊x - min_val⌋ % 65536).toNat

/-- The body of one iteration of the per-slice loop of `toDicom`: builds the
boilerplate dataset with the three shared UIDs, overwrites the slice-specific
fields exactly as the source does, and pairs the dataset with the path
`os.path.join(dname, '{}{:04d}.dcm'.format(fpre, i))`.  Returns the advanced
UID supply. -/
def mkSliceEntry (v : Volume) (SeriesInstanceUID StudyInstanceUID FrameOfReferenceUID : ℕ)
    (min_val : ℚ) (dname fpre : String) (i c : ℕ) : (String × Dataset) × ℕ :=
  let p := make_dicom_boilerplate (some SeriesInstanceUID) (some StudyInstanceUID)
    (some FrameOfReferenceUID) c
  let f := v.frameofreference
  let sliceLoc := f.start.getD 2 0 + (i : ℚ) * f.spacing.getD 2 0
  let ds := { p.1 with
    SliceThickness := f.spacing.getD 2 0
    PixelSpacing := f.spacing.take 2
    SliceLocation := sliceLoc
    ImagePositionPatient := f.start.take 2 ++ [sliceLoc]
    Columns := f.size.getD 0 0
    Rows := f.size.getD 1 0
    AcquisitionNumber := i + 1
    Modality := v.modality.getD ""
    DerivationDescription := some (v.feature_label.getD "")
    PixelData := some ((sliceFlat v.data i).map (storedPixel min_val))
    RescaleSlope := 1
    RescaleIntercept := ⌊min_val⌋
    PixelRepresentation := 0 }
  ((dname ++ "/" ++ fpre ++ pad4 i ++ ".dcm", ds), p.2)

/-- The per-slice loop `for i in range(self.frameofreference.size[2])`,
threading the UID supply; `i` is the current index and the third `ℕ`
argument the remaining iteration count. -/
def toDicomLoop (v : Volume) (seriesUID studyUID forUID : ℕ) (min_val : ℚ)
    (dname fpre : String) : ℕ → ℕ → ℕ → List (String × Dataset) × ℕ
  | _, c, 0 => ([], c)
  | i, c, k + 1 =>
      let e := mkSliceEntry v seriesUID studyUID forUID min_val dname fpre i c
      let r := toDicomLoop v seriesUID studyUID forUID min_val dname fpre (i + 1) e.2 k
      (e.1 :: r.1, r.2)

/-- Embeds `BaseVolume.toDicom(dname, fpre)`: generate the three shared UIDs (in
source order Series, Study, FrameOfReference), take the global minimum once,
then run the per-slice loop.  Returns the written (path, dataset) pairs in
order and the final UID supply. -/
def toDicom (v : Volume) (dname fpre : String) (c : ℕ) :
    List (String × Dataset) × ℕ :=
  let p1 := generate_uid c
  let p2 := generate_uid p1.2
  let p3 := generate_uid p2.2
  let min_val := npMin v.data.flat
  toDicomLoop v p1.1 p2.1 p3.1 min_val dname fpre 0 p3.2
    (v.frameofreference.size.getD 2 0)

/-- Filesystem as an association list path ↦ dataset; a write replaces the
entry when the path exists (silent overwrite) and appends otherwise — it is
total, so no write ever fails. -/
def fsWrite (fs : List (String × Dataset)) (p : String × Dataset) :
    List (String × Dataset) :=
  if fs.any fun q => q.1 = p.1 then
    fs.map fun q => if q.1 = p.1 then p else q
  else fs ++ [p]

/-- Apply a list of writes in order. -/
def fsWriteAll (fs : List (String × Dataset)) (ps : List (String × Dataset)) :
    List (String × Dataset) :=
  ps.foldl fsWrite fs

/-- The observable state an export call touches: the volume object itself,
the output filesystem, and the UID supply. -/
structure ExportState where
  volume : Volume
  fs : List (String × Dataset)
  uidCtr : ℕ

/-- A full `toDicom` call as a state transformer: it reads the volume,
writes the slice files, and advances the UID supply.  The Python method
never assigns to `self`, which the embedding renders by passing the volume
through unchanged. -/
def toDicomRun (dname fpre : String) (s : ExportState) : ExportState :=
  let r := toDicom s.volume dname fpre s.uidCtr
  { volume := s.volume, fs := fsWriteAll s.fs r.1, uidCtr := r.2 }

/-! ## Helper lemmas -/

theorem mkSliceEntry_snd (v : Volume) (su st fo : ℕ) (mv : ℚ) (dn fp : String)
    (i c : ℕ) : (mkSliceEntry v su st fo mv dn fp i c).2 = c + 2 := rfl

theorem toDicomLoop_length (v : Volume) (su st fo : ℕ) (mv : ℚ) (dn fp : String) :
    ∀ k i c, (toDicomLoop v su st fo mv dn fp i c k).1.length = k := by
  intro k
  induction k with
  | zero => intro i c; rfl
  | succ k ih => intro i c; simp [toDicomLoop, ih]

theorem toDicomLoop_get (v : Volume) (su st fo : ℕ) (mv : ℚ) (dn fp : String) :
    ∀ k j i c, j < k →
      (toDicomLoop v su st fo mv dn fp i c k).1.get? j
        = some (mkSliceEntry v su st fo mv dn fp (i + j) (c + 2 * j)).1 := by
  intro k
  induction k with
  | zero => intro j i c h; exact absurd h (Nat.not_lt_zero j)
  | succ k ih =>
      intro j i c hj
      cases j with
      | zero => simp [toDicomLoop]
      | succ j =>
          have h := ih j (i + 1) (c + 2) (Nat.lt_of_succ_lt_succ hj)
          have e1 : i + 1 + j = i + (j + 1) := by omega
          have e2 : c + 2 + 2 * j = c + 2 * (j + 1) := by omega
          rw [e1, e2] at h
          simpa [toDicomLoop, mkSliceEntry_snd] using h

theorem toDicom_get (v : Volume) (dn fp : String) (c : ℕ) (i : ℕ)
    (hi : i < v.frameofreference.size.getD 2 0) :
    (toDicom v dn fp c).1.get? i
      = some (mkSliceEntry v c (c + 1) (c + 2) (npMin v.data.flat) dn fp i
          (c + 3 + 2 * i)).1 := by
  have h := toDicomLoop_get v c (c + 1) (c + 2) (npMin v.data.flat) dn fp
    (v.frameofreference.size.getD 2 0) i 0 (c + 3) hi
  simpa [toDicom, generate_uid] using h

theorem mkSliceEntry_UID_irrel (d : NDArray) (st sp : List ℚ) (szl : List ℕ)
    (u u' : Option ℕ) (m fl : Option String) (su stu fo : ℕ) (mv : ℚ)
    (dn fp : String) (i c : ℕ) :
    mkSliceEntry ⟨d, ⟨st, sp, szl, u⟩, m, fl⟩ su stu fo mv dn fp i c
      = mkSliceEntry ⟨d, ⟨st, sp, szl, u'⟩, m, fl⟩ su stu fo mv dn fp i c := rfl

theorem toDicomLoop_UID_irrel (d : NDArray) (st sp : List ℚ) (szl : List ℕ)
    (u u' : Option ℕ) (m fl : Option String) (su stu fo : ℕ) (mv : ℚ)
    (dn fp : String) :
    ∀ k i c, toDicomLoop ⟨d, ⟨st, sp, szl, u⟩, m, fl⟩ su stu fo mv dn fp i c k
      = toDicomLoop ⟨d, ⟨st, sp, szl, u'⟩, m, fl⟩ su stu fo mv dn fp i c k := by
  intro k
  induction k with
  | zero => intro i c; rfl
  | succ k ih =>
      intro i c
      simp only [toDicomLoop, mkSliceEntry_UID_irrel d st sp szl u u', ih]

theorem toDicom_UID_irrel (d : NDArray) (st sp : List ℚ) (szl : List ℕ)
    (u u' : Option ℕ) (m fl : Option String) (dn fp : String) (c : ℕ) :
    toDicom ⟨d, ⟨st, sp, szl, u⟩, m, fl⟩ dn fp c
      = toDicom ⟨d, ⟨st, sp, szl, u'⟩, m, fl⟩ dn fp c := by
  simp only [toDicom, toDicomLoop_UID_irrel d st sp szl u u']

theorem foldl_min_replicate (a : ℚ) : ∀ n, (List.replicate n a).foldl min a = a := by
  intro n
  induction n with
  | zero => rfl
  | succ n ih => simpa [List.replicate_succ] using ih

theorem npMin_replicate (a : ℚ) (n : ℕ) (hn : 0 < n) :
    npMin (List.replicate n a) = a := by
  cases n with
  | zero => exact absurd hn (lt_irrefl 0)
  | succ n => simp [List.replicate_succ, npMin, foldl_min_replicate]

theorem fsWrite_keys (fs : List (String × Dataset)) (p : String × Dataset) :
    (fsWrite fs p).map Prod.fst
      = if p.1 ∈ fs.map Prod.fst then fs.map Prod.fst
        else fs.map Prod.fst ++ [p.1] := by
  unfold fsWrite
  by_cases h : p.1 ∈ fs.map Prod.fst
  · rw [if_pos h, if_pos, List.map_map]
    · refine List.map_congr_left ?_
      intro q _
      by_cases hqe : q.1 = p.1 <;> simp [hqe]
    · simp only [List.any_eq_true, decide_eq_true_eq]
      obtain ⟨q, hq, hqe⟩ := List.mem_map.1 h
      exact ⟨q, hq, hqe⟩
  · rw [if_neg h, if_neg]
    · simp
    · simp only [List.any_eq_true, decide_eq_true_eq, not_exists]
      intro q hq
      exact h (List.mem_map.2 ⟨q, hq.1, hq.2⟩)

theorem fsWrite_keys_mono (fs : List (String × Dataset)) (p : String × Dataset)
    (k : String) (hk : k ∈ fs.map Prod.fst) :
    k ∈ (fsWrite fs p).map Prod.fst := by
  rw [fsWrite_keys]
  by_cases h : p.1 ∈ fs.map Prod.fst <;> simp [h, hk]

theorem fsWrite_keys_self (fs : List (String × Dataset)) (p : String × Dataset) :
    p.1 ∈ (fsWrite fs p).map Prod.fst := by
  rw [fsWrite_keys]
  by_cases h : p.1 ∈ fs.map Prod.fst <;> simp [h]

theorem fsWriteAll_keys_mono :
    ∀ (ps fs : List (String × Dataset)) (k : String), k ∈ fs.map Prod.fst →
      k ∈ (fsWriteAll fs ps).map Prod.fst := by
  intro ps
  induction ps with
  | nil => intro fs k hk; exact hk
  | cons p ps ih =>
      intro fs k hk
      exact ih (fsWrite fs p) k (fsWrite_keys_mono fs p k hk)

theorem fsWriteAll_keys_of_mem :
    ∀ (ps fs : List (String × Dataset)) (p : String × Dataset), p ∈ ps →
      p.1 ∈ (fsWriteAll fs ps).map Prod.fst := by
  intro ps
  induction ps with
  | nil => intro fs p hp; cases hp
  | cons q ps ih =>
      intro fs p hp
      rcases List.mem_cons.1 hp with h | h
      · subst h
        exact fsWriteAll_keys_mono ps (fsWrite fs p) p.1 (fsWrite_keys_self fs p)
      · exact ih (fsWrite fs q) p h

theorem fsWriteAll_keys_stable :
    ∀ (ps fs : List (String × Dataset)),
      (∀ p ∈ ps, p.1 ∈ fs.map Prod.fst) →
      (fsWriteAll fs ps).map Prod.fst = fs.map Prod.fst := by
  intro ps
  induction ps with
  | nil => intro fs _; rfl
  | cons p ps ih =>
      intro fs h
      have hp := h p (List.mem_cons_self p ps)
      have hkeys : (fsWrite fs p).map Prod.fst = fs.map Prod.fst := by
        rw [fsWrite_keys, if_pos hp]
      have hrest : (fsWriteAll (fsWrite fs p) ps).map Prod.fst
          = (fsWrite fs p).map Prod.fst := by
        refine ih (fsWrite fs p) ?_
        intro q hq
        rw [hkeys]
        exact h q (List.mem_cons_of_mem p hq)
      calc (fsWriteAll fs (p :: ps)).map Prod.fst
        = (fsWriteAll (fsWrite fs p) ps).map Prod.fst := rfl
        _ = (fsWrite fs p).map Prod.fst := hrest
        _ = fs.map Prod.fst := hkeys

theorem toDicomLoop_map_fst (v : Volume) (mv : ℚ) (dn fp : String) :
    ∀ (k i c c' su st fo su' st' fo' : ℕ),
      (toDicomLoop v su st fo mv dn fp i c k).1.map Prod.fst
        = (toDicomLoop v su' st' fo' mv dn fp i c' k).1.map Prod.fst := by
  intro k
  induction k with
  | zero => intros; rfl
  | succ k ih =>
      intro i c c' su st fo su' st' fo'
      simp only [toDicomLoop, List.map_cons]
      exact congrArg (List.cons _) (ih (i + 1) _ _ su st fo su' st' fo')

theorem toDicom_map_fst (v : Volume) (dn fp : String) (c c' : ℕ) :
    (toDicom v dn fp c).1.map Prod.fst = (toDicom v dn fp c').1.map Prod.fst := by
  simp only [toDicom]
  exact toDicomLoop_map_fst v _ dn fp _ 0 _ _ _ _ _ _ _ _

/-! ## Claim theorems -/

/-- C2: the synthesized frame of `fromArray` without a supplied frame.  The
claim says the trailing `1` is appended only for 2-D input, a (5,5) array
yields `frame.size == (5,5,1)` exporting 1 file, and a 3-D (Z,Y,X) array
yields `frame.size == (X,Y,Z)`.  The code instead appends the `1` after
`atleast_3d` has already padded, so (5,5) yields `(1,5,5,1)` and 5 exported
files, and (2,3,4) yields `(4,3,2,1)` — contradicting the in-source
documentation that `size` is an `(x,y,z)` triple. -/
theorem fromArray_noframe_padding_bug :
    (fromArray ⟨[5, 5], List.replicate 25 1⟩ none).map
        (fun v => v.frameofreference.size) = some [1, 5, 5, 1] ∧
    (fromArray ⟨[5, 5], List.replicate 25 1⟩ none).map
        (fun v => (toDicom v "out" "" 0).1.length) = some 5 ∧
    (fromArray ⟨[2, 3, 4], List.replicate 24 1⟩ none).map
        (fun v => v.frameofreference.size) = some [4, 3, 2, 1] ∧
    (fromArray ⟨[5, 5], List.replicate 25 1⟩ none).map
        (fun v => v.frameofreference.start) = some [0, 0, 0] ∧
    (fromArray ⟨[5, 5], List.replicate 25 1⟩ none).map
        (fun v => v.frameofreference.spacing) = some [1, 1, 1] := by
  refine ⟨rfl, ?_, rfl, rfl, rfl⟩
  have h : (fromArray ⟨[5, 5], List.replicate 25 1⟩ none).map
      (fun v => (toDicom v "out" "" 0).1.length)
      = (fromArray ⟨[5, 5], List.replicate 25 1⟩ none).map
        (fun v => v.frameofreference.size.getD 2 0) := by
    simp only [toDicom, toDicomLoop_length]
  rw [h]; rfl

/-- C4: per-slice geometry fields.  For a frame with start `(x0,y0,z0)`,
spacing `(px,py,pz)` and size `(sx,sy,sz)`, the i-th written dataset has
SliceThickness `pz`, PixelSpacing `(px,py)`, SliceLocation `z0 + i*pz`,
ImagePositionPatient `(x0, y0, SliceLocation)`, Columns `sx`, Rows `sy`,
and AcquisitionNumber `i+1`. -/
theorem toDicom_slice_geometry (v : Volume) (dname fpre : String) (c : ℕ)
    (x0 y0 z0 px py pz : ℚ) (sx sy sz : ℕ) (i : ℕ)
    (hstart : v.frameofreference.start = [x0, y0, z0])
    (hspacing : v.frameofreference.spacing = [px, py, pz])
    (hsize : v.frameofreference.size = [sx, sy, sz])
    (hi : i < sz) :
    ∃ e : String × Dataset, (toDicom v dname fpre c).1.get? i = some e ∧
      e.2.SliceThickness = pz ∧ e.2.PixelSpacing = [px, py] ∧
      e.2.SliceLocation = z0 + (i : ℚ) * pz ∧
      e.2.ImagePositionPatient = [x0, y0, z0 + (i : ℚ) * pz] ∧
      e.2.Columns = sx ∧ e.2.Rows = sy ∧ e.2.AcquisitionNumber = i + 1 := by
  have hi' : i < v.frameofreference.size.getD 2 0 := by
    rw [hsize]; simpa using hi
  refine ⟨_, toDicom_get v dname fpre c i hi', ?_, ?_, ?_, ?_, ?_, ?_, ?_⟩ <;>
    simp [mkSliceEntry, make_dicom_boilerplate, hstart, hspacing, hsize]

/-- Witness for C4: slice 1 of a 4-slice volume with start (0,0,0) and unit
spacing, where the expected SliceLocation is 1. -/
theorem toDicom_slice_geometry_witness :
    ∃ e : String × Dataset,
      (toDicom ⟨⟨[4, 1, 1], [0, 0, 0, 0]⟩,
          ⟨[0, 0, 0], [1, 1, 1], [1, 1, 4], none⟩, none, none⟩
        "out" "" 0).1.get? 1 = some e ∧
      e.2.SliceThickness = 1 ∧ e.2.PixelSpacing = [1, 1] ∧
      e.2.SliceLocation = 0 + ((1 : ℕ) : ℚ) * 1 ∧
      e.2.ImagePositionPatient = [0, 0, 0 + ((1 : ℕ) : ℚ) * 1] ∧
      e.2.Columns = 1 ∧ e.2.Rows = 1 ∧ e.2.AcquisitionNumber = 1 + 1 :=
  toDicom_slice_geometry _ "out" "" 0 0 0 0 1 1 1 1 1 4 1 rfl rfl rfl
    (by decide)

/-- C5: `toDicom` writes exactly `frame.size[2]` files, the i-th named
`<fpre><i zero-padded to 4 digits>.dcm` inside `dname`; a second export with
the same directory and the same file-name stem produces the same names, so
replaying both write lists against the filesystem (an upsert that never
fails) leaves exactly the key set of a single export — the second call
overwrites the first without error. -/
theorem toDicom_file_naming (v : Volume) (dname fpre : String) (c c' : ℕ)
    (sx sy sz : ℕ) (hsize : v.frameofreference.size = [sx, sy, sz]) :
    (toDicom v dname fpre c).1.length = sz ∧
    (∀ i, i < sz →
      ((toDicom v dname fpre c).1.get? i).map Prod.fst
        = some (dname ++ "/" ++ fpre ++ pad4 i ++ ".dcm")) ∧
    (fsWriteAll (fsWriteAll [] (toDicom v dname fpre c).1)
        (toDicom v dname fpre c').1).map Prod.fst
      = (fsWriteAll [] (toDicom v dname fpre c).1).map Prod.fst := by
  refine ⟨?_, ?_, ?_⟩
  · simp [toDicom, toDicomLoop_length, hsize]
  · intro i hi
    have hi' : i < v.frameofreference.size.getD 2 0 := by
      rw [hsize]; simpa using hi
    rw [toDicom_get v dname fpre c i hi']
    rfl
  · refine fsWriteAll_keys_stable _ _ ?_
    intro p hp
    have hn : p.1 ∈ (toDicom v dname fpre c').1.map Prod.fst :=
      List.mem_map_of_mem Prod.fst hp
    rw [toDicom_map_fst v dname fpre c' c] at hn
    obtain ⟨q, hq, hqe⟩ := List.mem_map.1 hn
    rw [← hqe]
    exact fsWriteAll_keys_of_mem _ [] q hq

/-- Witness for C5: a two-slice volume exported twice, with supplies 0 and
100. -/
theorem toDicom_file_naming_witness :
    (toDicom ⟨⟨[2, 1, 1], [0, 1]⟩, ⟨[0, 0, 0], [1, 1, 1], [1, 1, 2], none⟩,
        none, none⟩ "out" "" 0).1.length = 2 ∧
    (∀ i, i < 2 →
      ((toDicom ⟨⟨[2, 1, 1], [0, 1]⟩, ⟨[0, 0, 0], [1, 1, 1], [1, 1, 2], none⟩,
          none, none⟩ "out" "" 0).1.get? i).map Prod.fst
        = some ("out" ++ "/" ++ "" ++ pad4 i ++ ".dcm")) ∧
    (fsWriteAll (fsWriteAll []
        (toDicom ⟨⟨[2, 1, 1], [0, 1]⟩, ⟨[0, 0, 0], [1, 1, 1], [1, 1, 2], none⟩,
          none, none⟩ "out" "" 0).1)
        (toDicom ⟨⟨[2, 1, 1], [0, 1]⟩, ⟨[0, 0, 0], [1, 1, 1], [1, 1, 2], none⟩,
          none, none⟩ "out" "" 100).1).map Prod.fst
      = (fsWriteAll []
        (toDicom ⟨⟨[2, 1, 1], [0, 1]⟩, ⟨[0, 0, 0], [1, 1, 1], [1, 1, 2], none⟩,
          none, none⟩ "out" "" 0).1).map Prod.fst :=
  toDicom_file_naming _ "out" "" 0 100 1 1 2 rfl

/-- C6: within one `toDicom` call the Series/Study/FrameOfReference UIDs are
generated exactly once — they are the first three fresh UIDs of the call,
shared verbatim by every slice dataset and independent of the frame's stored
`UID` field — while each slice gets its own fresh `SOPInstanceUID`, distinct
between distinct slices. -/
theorem toDicom_uid_sharing (v : Volume) (dname fpre : String) (c : ℕ)
    (sx sy sz : ℕ) (hsize : v.frameofreference.size = [sx, sy, sz])
    (i j : ℕ) (hi : i < sz) (hj : j < sz) :
    ∃ ei ej : String × Dataset,
      (toDicom v dname fpre c).1.get? i = some ei ∧
      (toDicom v dname fpre c).1.get? j = some ej ∧
      ei.2.SeriesInstanceUID = c ∧ ei.2.StudyInstanceUID = c + 1 ∧
      ei.2.FrameOfReferenceUID = c + 2 ∧
      ej.2.SeriesInstanceUID = c ∧ ej.2.StudyInstanceUID = c + 1 ∧
      ej.2.FrameOfReferenceUID = c + 2 ∧
      ei.2.SOPInstanceUID = c + 4 + 2 * i ∧
      (i ≠ j → ei.2.SOPInstanceUID ≠ ej.2.SOPInstanceUID) ∧
      (∀ u : Option ℕ,
        toDicom { v with frameofreference := { v.frameofreference with UID := u } }
          dname fpre c = toDicom v dname fpre c) := by
  have hi' : i < v.frameofreference.size.getD 2 0 := by
    rw [hsize]; simpa using hi
  have hj' : j < v.frameofreference.size.getD 2 0 := by
    rw [hsize]; simpa using hj
  refine ⟨_, _, toDicom_get v dname fpre c i hi', toDicom_get v dname fpre c j hj',
    rfl, rfl, rfl, rfl, rfl, rfl, ?_, ?_, ?_⟩
  · show c + 3 + 2 * i + 1 = c + 4 + 2 * i
    omega
  · intro hne
    show c + 3 + 2 * i + 1 ≠ c + 3 + 2 * j + 1
    omega
  · intro u
    obtain ⟨d, ⟨st, sp, szl, u0⟩, m, fl⟩ := v
    exact toDicom_UID_irrel d st sp szl u u0 m fl dname fpre c

/-- Witness for C6: the two slices of a two-slice volume. -/
theorem toDicom_uid_sharing_witness :
    ∃ ei ej : String × Dataset,
      (toDicom ⟨⟨[2, 1, 1], [0, 1]⟩,
          ⟨[0, 0, 0], [1, 1, 1], [1, 1, 2], some 99⟩, none, none⟩
        "out" "" 7).1.get? 0 = some ei ∧
      (toDicom ⟨⟨[2, 1, 1], [0, 1]⟩,
          ⟨[0, 0, 0], [1, 1, 1], [1, 1, 2], some 99⟩, none, none⟩
        "out" "" 7).1.get? 1 = some ej ∧
      ei.2.SeriesInstanceUID = 7 ∧ ei.2.StudyInstanceUID = 7 + 1 ∧
      ei.2.FrameOfReferenceUID = 7 + 2 ∧
      ej.2.SeriesInstanceUID = 7 ∧ ej.2.StudyInstanceUID = 7 + 1 ∧
      ej.2.FrameOfReferenceUID = 7 + 2 ∧
      ei.2.SOPInstanceUID = 7 + 4 + 2 * 0 ∧
      (0 ≠ 1 → ei.2.SOPInstanceUID ≠ ej.2.SOPInstanceUID) ∧
      (∀ u : Option ℕ,
        toDicom { (⟨⟨[2, 1, 1], [0, 1]⟩,
            ⟨[0, 0, 0], [1, 1, 1], [1, 1, 2], some 99⟩, none, none⟩ : Volume) with
          frameofreference :=
            { (⟨[0, 0, 0], [1, 1, 1], [1, 1, 2], some 99⟩ : FrameOfReference) with
              UID := u } } "out" "" 7
          = toDicom ⟨⟨[2, 1, 1], [0, 1]⟩,
              ⟨[0, 0, 0], [1, 1, 1], [1, 1, 2], some 99⟩, none, none⟩ "out" "" 7) :=
  toDicom_uid_sharing _ "out" "" 7 1 1 2 rfl 0 1 (by decide) (by decide)

/-- C1: for every numeric array and every frame whose voxel count
`frame.size.prod` equals the array's element count, `fromArray` succeeds and
the resulting volume's data shape is `(frame.size[2], frame.size[1],
frame.size[0])`, i.e. the shape invariant holds after construction. -/
theorem fromArray_shape_invariant (a : NDArray) (f : FrameOfReference)
    (sx sy sz : ℕ) (hsize : f.size = [sx, sy, sz])
    (hcount : a.flat.length = f.size.prod) :
    ∃ v : Volume, fromArray a (some f) = some v ∧
      v.data.shape = [sz, sy, sx] ∧ v.frameofreference = f := by
  have hc : a.flat.length = f.size.reverse.prod := by
    rw [List.prod_reverse]; exact hcount
  by_cases h2 : a.shape.length = 2
  · exact ⟨⟨⟨f.size.reverse, a.flat⟩, f, none, none⟩,
      by simp [fromArray, atleast_3d, NDArray.reshape, h2, hc],
      by simp [hsize], rfl⟩
  · exact ⟨⟨⟨f.size.reverse, a.flat⟩, f, none, none⟩,
      by simp [fromArray, atleast_3d, NDArray.reshape, h2, hc],
      by simp [hsize], rfl⟩

/-- Witness for C1 at a concrete input: a 24-element array of shape (2,3,4)
against a frame of size (4,3,2). -/
theorem fromArray_shape_invariant_witness :
    ∃ v : Volume,
      fromArray ⟨[2, 3, 4], List.replicate 24 0⟩
        (some ⟨[0, 0, 0], [1, 1, 1], [4, 3, 2], none⟩) = some v ∧
      v.data.shape = [2, 3, 4] ∧
      v.frameofreference = ⟨[0, 0, 0], [1, 1, 1], [4, 3, 2], none⟩ :=
  fromArray_shape_invariant _ _ 4 3 2 rfl (by simp)

/-- C3: construction with a supplied frame fails (returns `none`, modelling
the numpy reshape `ValueError` surfaced immediately and fatally at
construction) exactly when the array's element count differs from the
product of `frame.size`. -/
theorem fromArray_mismatch_iff (a : NDArray) (f : FrameOfReference) :
    fromArray a (some f) = none ↔ a.flat.length ≠ f.size.prod := by
  by_cases h2 : a.shape.length = 2 <;>
    simp [fromArray, atleast_3d, NDArray.reshape, h2, List.prod_reverse,
      apply_ite, ite_eq_right_iff]

/-- C9: a `toDicom` call leaves the volume object — data, frame of
reference with all its fields, modality and feature label — unchanged; the
method only reads `self`. -/
theorem toDicomRun_volume_unchanged (dname fpre : String) (s : ExportState) :
    (toDicomRun dname fpre s).volume = s.volume := rfl

/-- C10: every dataset written by `toDicom` keeps the boilerplate
`InstanceNumber = 1` — the loop sets `AcquisitionNumber = i+1` but never
overrides `InstanceNumber` — so all slices of an export share it. -/
theorem toDicom_instanceNumber_one (v : Volume) (dname fpre : String) (c : ℕ)
    (sx sy sz : ℕ) (hsize : v.frameofreference.size = [sx, sy, sz])
    (i : ℕ) (hi : i < sz) :
    ∃ e : String × Dataset, (toDicom v dname fpre c).1.get? i = some e ∧
      e.2.InstanceNumber = 1 := by
  have hi' : i < v.frameofreference.size.getD 2 0 := by
    rw [hsize]; simpa using hi
  exact ⟨_, toDicom_get v dname fpre c i hi', rfl⟩

/-- C7: `toDicom` takes the global minimum once over the whole volume; every
slice stores `(data[i,:,:] - minVal)` as unsigned 16-bit values flattened
row-major, with RescaleSlope 1 and RescaleIntercept `⌊minVal⌋`; for an
all-ones volume every stored value is 0, the intercept is 1, and
`storedValue + RescaleIntercept` recovers the original intensity 1. -/
theorem toDicom_rescale_roundtrip (v : Volume) (dname fpre : String) (c : ℕ)
    (sx sy sz : ℕ) (hsize : v.frameofreference.size = [sx, sy, sz])
    (i : ℕ) (hi : i < sz) :
    ∃ e : String × Dataset, (toDicom v dname fpre c).1.get? i = some e ∧
      e.2.RescaleSlope = 1 ∧
      e.2.RescaleIntercept = ⌊npMin v.data.flat⌋ ∧
      e.2.PixelData
        = some ((sliceFlat v.data i).map (storedPixel (npMin v.data.flat))) ∧
      (∀ n : ℕ, 0 < n → v.data.flat = List.replicate n 1 →
        e.2.RescaleIntercept = 1 ∧
        ∀ p ∈ e.2.PixelData.getD [], p = 0 ∧ (p : ℤ) + e.2.RescaleIntercept = 1) := by
  have hi' : i < v.frameofreference.size.getD 2 0 := by
    rw [hsize]; simpa using hi
  refine ⟨_, toDicom_get v dname fpre c i hi', rfl, rfl, rfl, ?_⟩
  intro n hn hflat
  have hmin : npMin v.data.flat = 1 := by
    rw [hflat]; exact npMin_replicate 1 n hn
  have hint : (⌊npMin v.data.flat⌋ : ℤ) = 1 := by rw [hmin]; norm_num
  refine ⟨hint, ?_⟩
  intro p hp
  have hp' : p ∈ (sliceFlat v.data i).map (storedPixel (npMin v.data.flat)) := hp
  obtain ⟨x, hx, hxp⟩ := List.mem_map.1 hp'
  have hxf : x ∈ v.data.flat :=
    List.mem_of_mem_drop (List.mem_of_mem_take hx)
  have hx1 : x = 1 := by
    rw [hflat] at hxf; exact List.eq_of_mem_replicate hxf
  have hp0 : p = 0 := by
    rw [← hxp, hx1, hmin]; simp [storedPixel]
  refine ⟨hp0, ?_⟩
  show (p : ℤ) + ⌊npMin v.data.flat⌋ = 1
  rw [hp0, hint]; norm_num

/-- Witness for C7: slice 0 of an all-ones 2x2x2 volume. -/
theorem toDicom_rescale_roundtrip_witness :
    ∃ e : String × Dataset,
      (toDicom ⟨⟨[2, 2, 2], List.replicate 8 1⟩,
          ⟨[0, 0, 0], [1, 1, 1], [2, 2, 2], none⟩, none, none⟩
        "out" "" 0).1.get? 0 = some e ∧
      e.2.RescaleSlope = 1 ∧
      e.2.RescaleIntercept
        = ⌊npMin (⟨[2, 2, 2], List.replicate 8 1⟩ : NDArray).flat⌋ ∧
      e.2.PixelData
        = some ((sliceFlat ⟨[2, 2, 2], List.replicate 8 1⟩ 0).map
            (storedPixel (npMin (⟨[2, 2, 2], List.replicate 8 1⟩ : NDArray).flat))) ∧
      (∀ n : ℕ, 0 < n →
        (⟨[2, 2, 2], List.replicate 8 1⟩ : NDArray).flat = List.replicate n 1 →
        e.2.RescaleIntercept = 1 ∧
        ∀ p ∈ e.2.PixelData.getD [], p = 0 ∧ (p : ℤ) + e.2.RescaleIntercept = 1) :=
  toDicom_rescale_roundtrip _ "out" "" 0 2 2 2 rfl 0 (by decide)

/-- C8: when a voxel exceeds the representable range
(`data[i,j,k] - minVal > 65535`), `toDicom` still produces a dataset — no
numeric-range error — and the stored value is the difference reduced modulo
2^16, i.e. a silent wraparound that changes the value. -/
theorem toDicom_pixel_wraparound (v : Volume) (dname fpre : String) (c : ℕ)
    (sx sy sz : ℕ) (hsize : v.frameofreference.size = [sx, sy, sz])
    (i : ℕ) (hi : i < sz) (j : ℕ) (x : ℚ) (d : ℤ)
    (hx : (sliceFlat v.data i).get? j = some x)
    (hd : ⌊x - npMin v.data.flat⌋ = d) (hbig : 65535 < d) :
    ∃ e : String × Dataset, (toDicom v dname fpre c).1.get? i = some e ∧
      (e.2.PixelData.getD []).get? j = some (d % 65536).toNat ∧
      ((d % 65536).toNat : ℤ) ≠ d := by
  have hi' : i < v.frameofreference.size.getD 2 0 := by
    rw [hsize]; simpa using hi
  refine ⟨_, toDicom_get v dname fpre c i hi', ?_, ?_⟩
  · show ((sliceFlat v.data i).map (storedPixel (npMin v.data.flat))).get? j
        = some (d % 65536).toNat
    rw [List.get?_map, hx]
    simp [storedPixel, hd]
  · have h1 : d % 65536 < 65536 := Int.emod_lt_of_pos d (by norm_num)
    have h2 : 0 ≤ d % 65536 := Int.emod_nonneg d (by norm_num)
    rw [Int.toNat_of_nonneg h2]
    omega

/-- Witness for C8: a two-slice volume whose second voxel exceeds the
minimum by 70000; the stored value is 70000 % 65536 = 4464 ≠ 70000. -/
theorem toDicom_pixel_wraparound_witness :
    ∃ e : String × Dataset,
      (toDicom ⟨⟨[2, 1, 1], [0, 70000]⟩,
          ⟨[0, 0, 0], [1, 1, 1], [1, 1, 2], none⟩, none, none⟩
        "out" "" 0).1.get? 1 = some e ∧
      (e.2.PixelData.getD []).get? 0 = some ((70000 : ℤ) % 65536).toNat ∧
      (((70000 : ℤ) % 65536).toNat : ℤ) ≠ (70000 : ℤ) :=
  toDicom_pixel_wraparound _ "out" "" 0 1 1 2 rfl 1 (by decide) 0 70000 70000
    rfl (by norm_num [npMin, sliceFlat]) (by norm_num)

/-- Witness for C10: slice 0 of a two-slice volume. -/
theorem toDicom_instanceNumber_one_witness :
    ∃ e : String × Dataset,
      (toDicom ⟨⟨[2, 1, 1], [0, 1]⟩, ⟨[0, 0, 0], [1, 1, 1], [1, 1, 2], none⟩,
          none, none⟩ "out" "" 0).1.get? 0 = some e ∧
      e.2.InstanceNumber = 1 :=
  toDicom_instanceNumber_one _ "out" "" 0 1 1 2 rfl 0 (by decide)

end Npy2dcm
